import Mathlib

/-!
Shallow embedding of the workflow-execution engine of
`src/services/autogen_orchestrator_v2.py` (class `AutoGenOrchestratorV2`):
the stage loop of `execute_workflow`, the retry wrapper `_execute_agent`,
and the context builder `_build_context`, together with the configuration
and backoff-policy collaborators they import.

The modules `src/services/orchestrator_config.py`,
`src/services/error_handler.py` and `src/services/execution_metrics.py`
are imported by the orchestrator but absent from the source tree; the
definitions taken from them are modelled from the spec (and from the
orchestrator's own docstrings) and are marked `Modelled from the spec:`
in their doc comments.

Observable behaviour is captured as a trace of events: metrics calls,
progress-tracker calls, handler invocations (with the context argument the
handler actually receives), context-builder calls, and backoff sleeps.
Agent handlers are modelled as functions from the attempt number to an
`Except` outcome, which folds in the per-attempt timeout (a timeout is one
more retryable exception) and the Excel payload (payload contents do not
influence the engine's control flow).
-/

namespace OrchestratorV2

/-- An exception raised by one handler attempt. The `retryable` flag is the
error classification consulted by the backoff policy. -/
structure AgentError where
  msg : String
  retryable : Bool
  deriving DecidableEq, Repr

/-- One observable action of the engine: the metrics-collector calls
(`record_start`, `record_end`, `record_retry`, `record_failure`), the
progress-tracker calls (`update_step_start`, `update_step_complete`,
`update_step_retry`, `update_step_failed`, keyed by the display label),
the call of `_build_context` for a task of a parallel group, the
invocation of the agent's `generate` (with the context value the agent
receives), and the backoff sleep. -/
inductive Event where
  | recordStart (name : String)
  | recordEnd (name : String) (size : Nat)
  | recordRetry (name : String)
  | recordFailure (name : String) (msg : String)
  | stepStart (label : String)
  | stepComplete (label : String)
  | stepRetry (label : String) (attempt : Nat)
  | stepFailed (label : String) (msg : String)
  | contextBuilt (name : String) (context : Option String)
  | handlerCall (name : String) (context : Option String)
  | sleepFor (delay : ℚ)
  deriving DecidableEq, Repr

/-- Agent name an event is attributed to, for the events keyed by agent
name (metrics calls, context building, handler invocation). -/
def Event.agentOf : Event → Option String
  | .recordStart n => some n
  | .recordEnd n _ => some n
  | .recordRetry n => some n
  | .recordFailure n _ => some n
  | .contextBuilt n _ => some n
  | .handlerCall n _ => some n
  | _ => none

/-- Display label an event is attributed to, for the progress-tracker
events (which the source keys by the Chinese display name). -/
def Event.labelOf : Event → Option String
  | .stepStart l => some l
  | .stepComplete l => some l
  | .stepRetry l _ => some l
  | .stepFailed l _ => some l
  | _ => none

/-- Modelled from the spec: the `ErrorHandler` class of
`src/services/error_handler.py` is imported by the orchestrator but the
file is absent from the source tree.  Per the spec it is constructed from
the orchestrator's `max_retries`, backoff base `B` (about 2 s) and backoff
ceiling `Bmax` (about 30 s). -/
structure ErrorHandler where
  max_retries : Nat
  backoff_base : ℚ
  backoff_max : ℚ
  deriving DecidableEq, Repr

/-- Modelled from the spec: `ErrorHandler.calculate_backoff` from the
absent `src/services/error_handler.py`.  The delay before retry number
`attempt` (1-based) is exponential with a ceiling and no jitter:
`min(B * 2 ** (attempt - 1), Bmax)`. -/
def ErrorHandler.calculate_backoff (eh : ErrorHandler) (attempt : Nat) : ℚ :=
  min (eh.backoff_base * 2 ^ (attempt - 1)) eh.backoff_max

/-- Modelled from the spec: `ErrorHandler.should_retry` from the absent
`src/services/error_handler.py`.  The policy retries exactly the
retryable error classes (transient failures, timeouts); non-retryable
errors are returned immediately. -/
def should_retry (e : AgentError) (attempt : Nat) : Bool :=
  e.retryable

/-- Modelled from the spec: `AgentConfig` from the absent
`src/services/orchestrator_config.py`.  The orchestrator reads `name`,
`retry` (the maximum attempt count, spec `maxAttempts >= 1`), `timeout`
(per attempt, folded into the handler outcome here) and `dependencies`. -/
structure AgentConfig where
  name : String
  retry : Nat
  timeout : Nat
  dependencies : List String
  deriving DecidableEq, Repr

/-- The retry loop of `_execute_agent`
(src/services/autogen_orchestrator_v2.py, lines 324-384):
`for attempt in range(config.retry)` invokes `agent.generate(data)` with
only the data argument, so the agent's optional `context` parameter stays
`None` — recorded as `handlerCall name none`.  On success it records the
metrics end and progress completion and returns.  On a failure with
`attempt < config.retry - 1` and `should_retry` true it records a retry,
sleeps `calculate_backoff(attempt + 1)` and continues; otherwise it breaks
out, records the failure and re-raises the last error.  When `retry = 0`
the loop body never runs and the source reaches `raise None` with
`str(None)` as the recorded failure reason.

The loop is embedded by structural recursion on the number of loop
iterations still available, `remaining`; the loop is entered with
`remaining = retry`, so the current attempt index of an iteration is
`attempt = retry - remaining` (0-based, as in `range(config.retry)`), and
the `remaining = 0` case is the exhausted/empty loop falling through to
`raise None`. -/
def runAttempts (eh : ErrorHandler) (name label : String) (retry : Nat)
    (handler : Nat → Except AgentError String) :
    Nat → List Event × Except AgentError String
  | 0 =>
      ([.recordFailure name "None", .stepFailed label "None"],
        .error { msg := "None", retryable := false })
  | remaining + 1 =>
      let attempt := retry - (remaining + 1)
      match handler attempt with
      | .ok r =>
          ([.handlerCall name none, .recordEnd name r.length, .stepComplete label], .ok r)
      | .error e =>
          if attempt < retry - 1 ∧ should_retry e attempt = true then
            let rest := runAttempts eh name label retry handler remaining
            (.handlerCall name none :: .recordRetry name ::
              .stepRetry label (attempt + 1) ::
              .sleepFor (eh.calculate_backoff (attempt + 1)) :: rest.1, rest.2)
          else
            ([.handlerCall name none, .recordFailure name e.msg, .stepFailed label e.msg],
              .error e)

/-- The body of `_execute_agent` (lines 295-384): looks the agent's config
up in `self._agent_configs` (a `KeyError` aborts before any event when the
name is unregistered), resolves the display label via
`AGENT_NAME_TO_CHINESE.get(agent_name, agent_name)`, records the progress
step start and the metrics start, and runs the retry loop.  The `context`
argument is accepted but never forwarded to `agent.generate`. -/
def executeAgent (eh : ErrorHandler) (configs : String → Option AgentConfig)
    (chineseOf : String → Option String)
    (handlers : String → Nat → Except AgentError String)
    (name : String) (context : Option String) :
    List Event × Except AgentError String :=
  match configs name with
  | none => ([], .error { msg := "KeyError: " ++ name, retryable := false })
  | some cfg =>
      let label := (chineseOf name).getD name
      let run := runAttempts eh name label cfg.retry (handlers name) cfg.retry
      (.stepStart label :: .recordStart name :: run.1, run.2)

/-- Lookup in the `results` dict (chapter number to generated text),
first-match association-list semantics. -/
def lookupRes (results : List (String × String)) (k : String) : Option String :=
  match results with
  | [] => none
  | (k', v) :: rest => if k' = k then some v else lookupRes rest k

/-- Assignment `results[k] = v` with Python-dict semantics: an existing
key keeps its position, a fresh key is appended. -/
def setRes (results : List (String × String)) (k v : String) :
    List (String × String) :=
  match results with
  | [] => [(k, v)]
  | (k', v') :: rest => if k' = k then (k, v) :: rest else (k', v') :: setRes rest k v

/-- Python's `"\n".join(...)`. -/
def joinWith (sep : String) : List String → String
  | [] => ""
  | [a] => a
  | a :: rest => a ++ sep ++ joinWith sep rest

/-- One iteration of the dependency loop of `_build_context`
(lines 413-423): the labelled block contributed by dependency `dep`, or
`none` when the dependency is skipped — its chapter number is missing or
falsy, the chapter is not in `results`, or the recorded content is falsy
(`None` or the empty string).  A contributed block is
`## <label>\n<first 500 characters of the content>\n`. -/
def depContribution (chapterOf chineseOf : String → Option String)
    (results : List (String × String)) (dep : String) : Option String :=
  match chapterOf dep with
  | none => none
  | some ch =>
      if ch = "" then none
      else
        match lookupRes results ch with
        | none => none
        | some content =>
            if content = "" then none
            else
              let summary :=
                if 500 < content.length then content.take 500 else content
              some ("## " ++ ((chineseOf dep).getD dep) ++ "\n" ++ summary ++ "\n")

/-- The body of `_build_context` (lines 395-425): when the agent has a
config with a non-empty dependency list, each dependency contributes its
`depContribution` block if any; the blocks are joined with `"\n"`, and
`None` is returned when no block was collected. -/
def buildContext (configs : String → Option AgentConfig)
    (chapterOf chineseOf : String → Option String)
    (name : String) (results : List (String × String)) : Option String :=
  match configs name with
  | none => none
  | some cfg =>
      if cfg.dependencies = [] then none
      else
        let contexts := cfg.dependencies.filterMap (depContribution chapterOf chineseOf results)
        if contexts = [] then none else some (joinWith "\n" contexts)

/-- One interleaving of the per-task event streams of a parallel group.
`asyncio.gather` runs the group's coroutines concurrently, so their events
may interleave arbitrarily; the schedule picks which stream advances next,
and whatever remains when the schedule is exhausted is appended in task
order.  Results are only processed after every stream is exhausted (the
`await gather` fan-in). -/
def interleave : List Nat → List (List Event) → List Event
  | [], traces => traces.flatten
  | i :: rest, traces =>
      match traces.get? i with
      | some (e :: es) => e :: interleave rest (traces.set i es)
      | _ => interleave rest traces

/-- Value stored into `results` for one task of a parallel group
(lines 268-274): the generated text on success, and the placeholder
`[生成失败: <error>]` when the gathered coroutine raised. -/
def resultValue : Except AgentError String → String
  | .ok r => r
  | .error e => "[生成失败: " ++ e.msg ++ "]"

/-- Static collaborators of one workflow run: the backoff policy, the
registered agent configs, the chapter-number and display-name maps, and
the handler outcomes. -/
structure Env where
  eh : ErrorHandler
  configs : String → Option AgentConfig
  chapterOf : String → Option String
  chineseOf : String → Option String
  handlers : String → Nat → Except AgentError String

/-- Python truthiness of the `selected_chapters` argument: the source
guard `if selected_chapters:` is false both for `None` and for `[]`. -/
def selTruthy : Option (List String) → Bool
  | some (_ :: _) => true
  | _ => false

/-- The chapter filter of `execute_workflow` (lines 225-233): applied only
when `selected_chapters` is truthy; keeps the agents whose chapter number
is in the selected list. -/
def filterGroup (env : Env) (selected : Option (List String))
    (group : List String) : List String :=
  if selTruthy selected then
    group.filter (fun n =>
      match env.chapterOf n with
      | some ch => (selected.getD []).contains ch
      | none => false)
  else group

/-- The result-processing loop after `asyncio.gather` (lines 268-274):
`for (agent_name, _), result in zip(tasks, parallel_results)`, writing
`results[AGENT_NAME_TO_CHAPTER[agent_name]]` — a missing chapter number is
a `KeyError`, which escapes the stage loop and aborts the run. -/
def applyGroup (env : Env) :
    List String → List (Except AgentError String) → List (String × String) →
    Except AgentError (List (String × String))
  | [], _, results => .ok results
  | n :: ns, rs, results =>
      match env.chapterOf n with
      | none => .error { msg := "KeyError: " ++ n, retryable := false }
      | some ch =>
          applyGroup env ns rs.tail
            (setRes results ch
              (resultValue (rs.headD (.error { msg := "None", retryable := false }))))

/-- The stage loop of `execute_workflow` (lines 224-293) over a list of
parallel groups, returning the event trace of each processed group (a
skipped group contributes `[]`, keeping segment indices aligned with
group indices) and either the final `results` dict or the exception that
aborted the run.  A group left empty by the chapter filter is skipped
(`continue`).  A single-task group runs synchronously with `context=None`;
an exception escaping it propagates out of the stage loop, is logged and
re-raised (lines 288-293), aborting the run.  A multi-task group first
builds every member's context from the results of the previous stages,
then gathers the members with `return_exceptions=True` (their event
streams interleaved by the head schedule) and stores one value per member
— the text or the failure placeholder. -/
def runGroups (env : Env) (selected : Option (List String)) :
    List (List Nat) → List (List String) → List (String × String) →
    List (List Event) × Except AgentError (List (String × String))
  | _, [], results => ([], .ok results)
  | scheds, group :: rest, results =>
      let g := filterGroup env selected group
      if selTruthy selected = true ∧ g = [] then
        let next := runGroups env selected scheds.tail rest results
        ([] :: next.1, next.2)
      else
        match g with
        | [name] =>
            let run := executeAgent env.eh env.configs env.chineseOf env.handlers name none
            match run.2 with
            | .error e => ([run.1], .error e)
            | .ok r =>
                match env.chapterOf name with
                | none => ([run.1], .error { msg := "KeyError: " ++ name, retryable := false })
                | some ch =>
                    let next := runGroups env selected scheds.tail rest (setRes results ch r)
                    (run.1 :: next.1, next.2)
        | _ =>
            let ctxEvents := g.map (fun n =>
              Event.contextBuilt n (buildContext env.configs env.chapterOf env.chineseOf n results))
            let runs := g.map (fun n =>
              executeAgent env.eh env.configs env.chineseOf env.handlers n
                (buildContext env.configs env.chapterOf env.chineseOf n results))
            let seg := ctxEvents ++ interleave (scheds.headD []) (runs.map Prod.fst)
            match applyGroup env g (runs.map Prod.snd) results with
            | .error e => ([seg], .error e)
            | .ok results2 =>
                let next := runGroups env selected scheds.tail rest results2
                (seg :: next.1, next.2)

/-- Modelled from the spec: `PARALLEL_GROUPS` from the absent
`src/services/orchestrator_config.py`.  The staging is fixed by the
orchestrator's own docstring (lines 171-175): chapter 1 alone, chapters
2 and 3 in parallel, chapters 4 and 5 in parallel, chapter 6 alone. -/
def PARALLEL_GROUPS : List (List String) :=
  [["project_overview"],
   ["site_selection", "compliance_analysis"],
   ["rationality_analysis", "land_use_analysis"],
   ["conclusion"]]

/-- Modelled from the spec: `AGENT_NAME_TO_CHAPTER` from the absent
`src/services/orchestrator_config.py`, the agent-name-to-chapter-number
map implied by the docstring chapter order and the v1 orchestrator. -/
def AGENT_NAME_TO_CHAPTER : String → Option String := fun n =>
  if n = "project_overview" then some "1"
  else if n = "site_selection" then some "2"
  else if n = "compliance_analysis" then some "3"
  else if n = "rationality_analysis" then some "4"
  else if n = "land_use_analysis" then some "5"
  else if n = "conclusion" then some "6"
  else none

/-- Modelled from the spec: `AGENT_NAME_TO_CHINESE` from the absent
`src/services/orchestrator_config.py`, the display names used by the
orchestrator's log line and docstring. -/
def AGENT_NAME_TO_CHINESE : String → Option String := fun n =>
  if n = "project_overview" then some "项目概况"
  else if n = "site_selection" then some "选址分析"
  else if n = "compliance_analysis" then some "合规分析"
  else if n = "rationality_analysis" then some "合理性分析"
  else if n = "land_use_analysis" then some "节地分析"
  else if n = "conclusion" then some "结论"
  else none

/-- Modelled from the spec: `DEFAULT_AGENT_CONFIGS` from the absent
`src/services/orchestrator_config.py`.  Defaults per the spec: three
attempts per task, a per-attempt timeout of hundreds of seconds, and the
context wiring of the spec's data flow (later chapters may read earlier
summaries; the conclusion reads the five content chapters). -/
def DEFAULT_AGENT_CONFIGS : List AgentConfig :=
  [{ name := "project_overview", retry := 3, timeout := 300, dependencies := [] },
   { name := "site_selection", retry := 3, timeout := 300,
     dependencies := ["project_overview"] },
   { name := "compliance_analysis", retry := 3, timeout := 300,
     dependencies := ["project_overview"] },
   { name := "rationality_analysis", retry := 3, timeout := 300,
     dependencies := ["site_selection"] },
   { name := "land_use_analysis", retry := 3, timeout := 300,
     dependencies := ["site_selection"] },
   { name := "conclusion", retry := 3, timeout := 300,
     dependencies := ["project_overview", "site_selection", "compliance_analysis",
       "rationality_analysis", "land_use_analysis"] }]

/-- The dict `self._agent_configs`, built as `cfg.name -> cfg` over
`DEFAULT_AGENT_CONFIGS`. -/
def defaultConfigs (n : String) : Option AgentConfig :=
  DEFAULT_AGENT_CONFIGS.find? (fun c => c.name = n)

/-- The error handler built by `__init__` from the default
`OrchestratorConfig` (spec defaults: three retries, base 2 s, ceiling
30 s). -/
def defaultEH : ErrorHandler :=
  { max_retries := 3, backoff_base := 2, backoff_max := 30 }

/-- One workflow run with the default collaborators and the given handler
outcomes. -/
def defaultEnv (handlers : String → Nat → Except AgentError String) : Env :=
  { eh := defaultEH, configs := defaultConfigs, chapterOf := AGENT_NAME_TO_CHAPTER,
    chineseOf := AGENT_NAME_TO_CHINESE, handlers := handlers }

/-- The whole of `execute_workflow` (lines 161-293) after Excel parsing
(the parsed payloads are folded into the handler outcomes; the source's
`chapters_data` covers exactly the six registered agents): the stage loop
over `PARALLEL_GROUPS` starting from an empty results dict. -/
def executeWorkflow (env : Env) (selected : Option (List String))
    (scheds : List (List Nat)) :
    List (List Event) × Except AgentError (List (String × String)) :=
  runGroups env selected scheds PARALLEL_GROUPS []

/-- Handler fixture: every agent succeeds at the first attempt. -/
def okHandlers : String → Nat → Except AgentError String :=
  fun n _ => .ok ("out_" ++ n)

/-- Handler fixture: `site_selection` raises a retryable error at every
attempt, every other agent succeeds at the first attempt. -/
def failSite : String → Nat → Except AgentError String :=
  fun n _ =>
    if n = "site_selection" then .error { msg := "boom", retryable := true }
    else .ok ("out_" ++ n)

/-- Handler fixture: `project_overview` raises a retryable error at every
attempt, every other agent succeeds at the first attempt. -/
def failFirst : String → Nat → Except AgentError String :=
  fun n _ =>
    if n = "project_overview" then .error { msg := "boom", retryable := true }
    else .ok ("out_" ++ n)

/-- Exception aborting a workflow run, when there is one. -/
def errorOf : Except AgentError (List (String × String)) → Option AgentError
  | .error e => some e
  | .ok _ => none

/-- Context values received by the named agent's handler, one entry per
invocation of `agent.generate`, in invocation order. -/
def handlerContextsOf (name : String) (evs : List Event) : List (Option String) :=
  evs.filterMap (fun e =>
    match e with
    | .handlerCall n c => if n = name then some c else none
    | _ => none)

/-- Number of invocations of the named agent's handler in a trace. -/
def handlerCallCount (name : String) (evs : List Event) : Nat :=
  (handlerContextsOf name evs).length

/-- Config fixture for the context-builder claims: a task `B` that
declares one dependency (on `site_selection`). -/
def cfgB : AgentConfig :=
  { name := "B", retry := 3, timeout := 60, dependencies := ["site_selection"] }

/-- Config-map fixture registering only `cfgB`. -/
def c5Configs : String → Option AgentConfig := fun n =>
  if n = "B" then some cfgB else none

/-- The default config of the `site_selection` agent, as registered in
`defaultConfigs`. -/
def siteSelectionCfg : AgentConfig :=
  { name := "site_selection", retry := 3, timeout := 300, dependencies := ["project_overview"] }

/-- C1: in a run where every handler succeeds, the engine does ask the
Context Builder for `site_selection`'s dependency context (its dependency
`project_overview` succeeded, so the context is a non-nil string), but the
handler invocation for `site_selection` receives `none` as its context —
`_execute_agent` calls `agent.generate(data)` without the context
argument, so the built context never reaches the handler. -/
theorem c1_context_never_reaches_handler :
    Event.contextBuilt "site_selection" (some "## 项目概况\nout_project_overview\n")
        ∈ (executeWorkflow (defaultEnv okHandlers) none []).1.flatten
    ∧ handlerContextsOf "site_selection"
        (executeWorkflow (defaultEnv okHandlers) none []).1.flatten = [none] := by
  decide

/-- C2 counterexample: when the failing task is the only task of its
stage (`project_overview`, stage 1), the run IS aborted: the workflow
re-raises the task's terminal error and no sibling or later-stage task
runs — no event of `site_selection` ever appears. -/
theorem c2_single_stage_failure_aborts :
    errorOf (executeWorkflow (defaultEnv failFirst) none []).2 =
      some { msg := "boom", retryable := true }
    ∧ ∀ e ∈ (executeWorkflow (defaultEnv failFirst) none []).1.flatten,
        Event.agentOf e ≠ some "site_selection" := by
  decide

/-- C3 counterexample: with no chapter filtering and a plan naming six
tasks, a run whose first (single-task-stage) task exhausts its retries
returns no result map at all — `execute_workflow` raises instead. -/
theorem c3_no_result_map_on_single_stage_failure :
    (executeWorkflow (defaultEnv failFirst) none []).2.toOption = none := by
  decide

/-- C4 counterexample: `rationality_analysis` depends on
`site_selection`; when `site_selection` fails (recorded failure `boom`,
placeholder stored as its chapter-2 result), the context built for
`rationality_analysis` contains a labelled excerpt of the failure
placeholder — the failed dependency is not omitted. -/
theorem c4_failed_dependency_in_context :
    Event.recordFailure "site_selection" "boom"
        ∈ (executeWorkflow (defaultEnv failSite) none []).1.flatten
    ∧ Event.contextBuilt "rationality_analysis" (some "## 选址分析\n[生成失败: boom]\n")
        ∈ (executeWorkflow (defaultEnv failSite) none []).1.flatten := by
  decide

/-- C5 counterexample: task `B` declares one dependency, yet
`_build_context` returns the absent-context marker `None` because the
dependency's chapter is not in the results map — so `None` is not
reserved for tasks with no dependencies at all. -/
theorem c5_dependency_without_result_yields_none :
    (c5Configs "B").map AgentConfig.dependencies = some ["site_selection"]
    ∧ buildContext c5Configs AGENT_NAME_TO_CHAPTER AGENT_NAME_TO_CHINESE "B" [] = none := by
  decide

/-- C10 counterexample: `selected_chapters = []` is a non-None list, and
chapter `1` is not in it, yet `project_overview` still runs and its
chapter appears in the returned map — the source guard
`if selected_chapters:` is false for an empty list, so no filtering
happens at all. -/
theorem c10_empty_selection_disables_filtering :
    ¬ ("1" ∈ ([] : List String))
    ∧ Event.handlerCall "project_overview" none
        ∈ (executeWorkflow (defaultEnv okHandlers) (some []) []).1.flatten
    ∧ lookupRes ((executeWorkflow (defaultEnv okHandlers) (some []) []).2.toOption.getD []) "1" =
        some "out_project_overview" := by
  decide

/-- Helper: every sleep the retry loop performs carries a value of the
backoff policy for some retry number of at least 1 (the source sleeps
`calculate_backoff(attempt + 1)`). -/
theorem sleep_events_are_backoffs (eh : ErrorHandler) (name label : String) (retry : Nat)
    (handler : Nat → Except AgentError String) :
    ∀ (remaining : Nat) (d : ℚ),
      Event.sleepFor d ∈ (runAttempts eh name label retry handler remaining).1 →
      ∃ j, 1 ≤ j ∧ d = eh.calculate_backoff j
  | 0, d, hd => by simp [runAttempts] at hd
  | m + 1, d, hd => by
      cases h : handler (retry - (m + 1)) with
      | ok r => simp [runAttempts, h] at hd
      | error e =>
          by_cases hc : retry - (m + 1) < retry - 1 ∧ should_retry e (retry - (m + 1)) = true
          · simp only [runAttempts, h, if_pos hc, List.mem_cons] at hd
            rcases hd with hd | hd | hd | hd | hd
            · cases hd
            · cases hd
            · cases hd
            · exact ⟨retry - (m + 1) + 1, by omega, by cases hd; rfl⟩
            · exact sleep_events_are_backoffs eh name label retry handler m d hd
          · simp [runAttempts, h, if_neg hc] at hd

/-- C8: the backoff delay before the k-th retry equals
`min(B * 2^(k-1), Bmax)` for the configured base `B` and ceiling `Bmax`,
and is a pure, deterministic function of `k`; moreover every sleep the
retry loop of `_execute_agent` performs carries such a value. -/
theorem c8_backoff_exponential_and_pure (eh : ErrorHandler) (k : Nat) (hk : 1 ≤ k) :
    eh.calculate_backoff k = min (eh.backoff_base * 2 ^ (k - 1)) eh.backoff_max
    ∧ eh.calculate_backoff k = eh.calculate_backoff k
    ∧ ∀ (name label : String) (retry : Nat)
        (handler : Nat → Except AgentError String) (remaining : Nat) (d : ℚ),
        Event.sleepFor d ∈ (runAttempts eh name label retry handler remaining).1 →
        ∃ j, 1 ≤ j ∧ d = min (eh.backoff_base * 2 ^ (j - 1)) eh.backoff_max :=
  ⟨rfl, rfl, fun name label retry handler remaining d hd => by
    obtain ⟨j, hj, rfl⟩ := sleep_events_are_backoffs eh name label retry handler remaining d hd
    exact ⟨j, hj, rfl⟩⟩

/-- Witness for C8 at `k = 3` with the default error handler:
`min(2 * 2^2, 30) = 8` seconds. -/
theorem c8_witness :
    1 ≤ 3 ∧ defaultEH.calculate_backoff 3 =
      min (defaultEH.backoff_base * 2 ^ (3 - 1)) defaultEH.backoff_max :=
  ⟨by decide, (c8_backoff_exponential_and_pure defaultEH 3 (by decide)).1⟩

/-- Helper: joining non-empty strings yields a string of positive
length. -/
theorem joinWith_length_pos (sep : String) :
    ∀ l : List String, (∀ x ∈ l, 0 < x.length) → l ≠ [] → 0 < (joinWith sep l).length
  | [], _, hl => absurd rfl hl
  | [a], h, _ => by simpa [joinWith] using h a (by simp)
  | a :: b :: t, h, _ => by
      have ha := h a (by simp)
      simp only [joinWith, String.length_append]
      omega

/-- Helper: a contributed dependency block is never empty (it starts with
a `## ` header line). -/
theorem depContribution_length_pos (chapterOf chineseOf : String → Option String)
    (results : List (String × String)) (dep : String) (x : String)
    (h : depContribution chapterOf chineseOf results dep = some x) : 0 < x.length := by
  unfold depContribution at h
  rcases hch : chapterOf dep with _ | ch <;> simp only [hch] at h
  case none => cases h
  by_cases h0 : ch = ""
  · simp [h0] at h
  · rw [if_neg h0] at h
    rcases hlk : lookupRes results ch with _ | content <;> simp only [hlk] at h
    · cases h
    · by_cases hc : content = ""
      · simp [hc] at h
      · rw [if_neg hc] at h
        cases h
        have h3 : ("## " : String).length = 3 := by decide
        simp only [String.length_append, h3]
        omega

/-- C9: `_build_context` never returns the empty string — its result is
either `None` or a non-empty string, so a handler could never observe an
empty-string context. -/
theorem c9_context_never_empty_string (configs : String → Option AgentConfig)
    (chapterOf chineseOf : String → Option String) (name : String)
    (results : List (String × String)) (s : String)
    (h : buildContext configs chapterOf chineseOf name results = some s) :
    s ≠ "" := by
  unfold buildContext at h
  rcases hcfg : configs name with _ | cfg <;> simp only [hcfg] at h
  case none => cases h
  by_cases hdep : cfg.dependencies = []
  · simp [hdep] at h
  · rw [if_neg hdep] at h
    by_cases hc :
        cfg.dependencies.filterMap (depContribution chapterOf chineseOf results) = []
    · simp [hc] at h
    · rw [if_neg hc] at h
      cases h
      intro hs
      have hpos : 0 <
          (joinWith "\n"
            (cfg.dependencies.filterMap
              (depContribution chapterOf chineseOf results))).length := by
        apply joinWith_length_pos
        · intro x hx
          obtain ⟨dep, _, hcon⟩ := List.mem_filterMap.mp hx
          exact depContribution_length_pos chapterOf chineseOf results dep x hcon
        · exact hc
      rw [hs] at hpos
      exact absurd hpos (by decide)

/-- Witness for C9: a concrete build with one satisfied dependency yields
a non-empty labelled block. -/
theorem c9_witness :
    buildContext c5Configs AGENT_NAME_TO_CHAPTER AGENT_NAME_TO_CHINESE "B"
        [("2", "hello")] = some "## 选址分析\nhello\n"
    ∧ "## 选址分析\nhello\n" ≠ "" :=
  ⟨by decide, c9_context_never_empty_string c5Configs AGENT_NAME_TO_CHAPTER
      AGENT_NAME_TO_CHINESE "B" [("2", "hello")] "## 选址分析\nhello\n" (by decide)⟩

/-- Helper: a dependency contributes nothing exactly when its chapter
number is missing or falsy, absent from the results, or recorded with
empty content. -/
theorem depContribution_eq_none_iff (chapterOf chineseOf : String → Option String)
    (results : List (String × String)) (dep : String) :
    depContribution chapterOf chineseOf results dep = none ↔
      ∀ ch, chapterOf dep = some ch → ch ≠ "" →
        lookupRes results ch = none ∨ lookupRes results ch = some "" := by
  unfold depContribution
  rcases hch : chapterOf dep with _ | ch <;> simp only [hch]
  · simp
  · by_cases h0 : ch = ""
    · simp [h0]
    · rw [if_neg h0]
      rcases hlk : lookupRes results ch with _ | content <;> simp only [hlk]
      · simp [h0, hlk]
      · by_cases hc : content = ""
        · simp [h0, hc, hlk]
        · rw [if_neg hc]
          simp [h0, hc, hlk]

/-- C5 amended: `_build_context` returns the absent-context marker `None`
exactly when no declared dependency contributes a block — in particular
not only for tasks without dependencies, but also for a task all of whose
dependencies are unmapped, absent from the results so far, or recorded
empty. -/
theorem c5_amended_none_iff_no_contribution (configs : String → Option AgentConfig)
    (chapterOf chineseOf : String → Option String) (name : String)
    (results : List (String × String)) (cfg : AgentConfig)
    (h : configs name = some cfg) :
    buildContext configs chapterOf chineseOf name results = none ↔
      ∀ dep ∈ cfg.dependencies, ∀ ch, chapterOf dep = some ch → ch ≠ "" →
        lookupRes results ch = none ∨ lookupRes results ch = some "" := by
  simp only [buildContext, h]
  by_cases hdep : cfg.dependencies = []
  · simp [hdep]
  · rw [if_neg hdep]
    constructor
    · intro hn dep hdm ch hch hch0
      by_cases hne :
          cfg.dependencies.filterMap (depContribution chapterOf chineseOf results) = []
      · exact (depContribution_eq_none_iff chapterOf chineseOf results dep).mp
          (List.filterMap_eq_nil_iff.mp hne dep hdm) ch hch hch0
      · rw [if_neg hne] at hn; cases hn
    · intro hall
      have hnil :
          cfg.dependencies.filterMap (depContribution chapterOf chineseOf results) = [] :=
        List.filterMap_eq_nil_iff.mpr (fun dep hdm =>
          (depContribution_eq_none_iff chapterOf chineseOf results dep).mpr (hall dep hdm))
      simp [hnil]

/-- Witness for C5's amended claim at a concrete input: task `B` declares
one dependency whose chapter has no recorded result, and the builder
returns `None`. -/
theorem c5_witness :
    c5Configs "B" = some cfgB
    ∧ (buildContext c5Configs AGENT_NAME_TO_CHAPTER AGENT_NAME_TO_CHINESE "B"
          ([] : List (String × String)) = none ↔
        ∀ dep ∈ cfgB.dependencies, ∀ ch, AGENT_NAME_TO_CHAPTER dep = some ch → ch ≠ "" →
          lookupRes ([] : List (String × String)) ch = none
          ∨ lookupRes ([] : List (String × String)) ch = some "") :=
  ⟨by decide, c5_amended_none_iff_no_contribution c5Configs AGENT_NAME_TO_CHAPTER
      AGENT_NAME_TO_CHINESE "B" ([] : List (String × String)) cfgB (by decide)⟩

/-- C4 amended: for a task `B` whose declared dependency is `A`, the
context omits `A` only when `A`'s chapter is absent from the results map
or recorded empty; when `A`'s chapter carries any non-empty content — in
particular the `[生成失败: ...]` placeholder recorded for a failed task of
a multi-task stage — the context includes a labelled excerpt of it. -/
theorem c4_amended_placeholder_included (configs : String → Option AgentConfig)
    (chapterOf chineseOf : String → Option String) (B A ch : String)
    (cfg : AgentConfig) (results : List (String × String))
    (hB : configs B = some cfg) (hdeps : cfg.dependencies = [A])
    (hch : chapterOf A = some ch) (hch0 : ch ≠ "") :
    ((lookupRes results ch = none ∨ lookupRes results ch = some "") →
        buildContext configs chapterOf chineseOf B results = none)
    ∧ (∀ p, lookupRes results ch = some p → p ≠ "" → p.length ≤ 500 →
        buildContext configs chapterOf chineseOf B results =
          some ("## " ++ ((chineseOf A).getD A) ++ "\n" ++ p ++ "\n")) := by
  constructor
  · intro habs
    simp only [buildContext, hB, hdeps]
    rcases habs with habs | habs <;>
      simp [depContribution, hch, hch0, habs]
  · intro p hp hp0 hp500
    simp only [buildContext, hB, hdeps]
    simp [depContribution, hch, hch0, hp, hp0, joinWith,
      show ¬ 500 < p.length from by omega]

/-- Witness for C4's amended claim at a concrete input: the failure
placeholder recorded for `site_selection` is included verbatim in `B`'s
context. -/
theorem c4_witness :
    lookupRes [("2", "[生成失败: boom]")] "2" = some "[生成失败: boom]"
    ∧ buildContext c5Configs AGENT_NAME_TO_CHAPTER AGENT_NAME_TO_CHINESE "B"
        [("2", "[生成失败: boom]")] = some "## 选址分析\n[生成失败: boom]\n" :=
  ⟨by decide,
    (c4_amended_placeholder_included c5Configs AGENT_NAME_TO_CHAPTER AGENT_NAME_TO_CHINESE
      "B" "site_selection" "2" cfgB
      [("2", "[生成失败: boom]")] (by decide) rfl (by decide) (by decide)).2
      "[生成失败: boom]" (by decide) (by decide) (by decide)⟩

/-- Helper: the retry loop performs at most `remaining` handler
invocations. -/
theorem handlerCallCount_le (eh : ErrorHandler) (name label : String) (retry : Nat)
    (handler : Nat → Except AgentError String) :
    ∀ remaining,
      handlerCallCount name (runAttempts eh name label retry handler remaining).1 ≤ remaining
  | 0 => by simp [runAttempts, handlerCallCount, handlerContextsOf]
  | m + 1 => by
      cases h : handler (retry - (m + 1)) with
      | ok r => simp [runAttempts, h, handlerCallCount, handlerContextsOf]
      | error e =>
          by_cases hc : retry - (m + 1) < retry - 1 ∧ should_retry e (retry - (m + 1)) = true
          · have ih := handlerCallCount_le eh name label retry handler m
            simp only [runAttempts, h, if_pos hc, handlerCallCount, handlerContextsOf,
              List.filterMap_cons] at ih ⊢
            simp_all
          · simp [runAttempts, h, if_neg hc, handlerCallCount, handlerContextsOf]

/-- Helper: when every attempt fails with a retryable error, the retry
loop entered with `remaining ≤ retry` iterations available performs
exactly `remaining` handler invocations. -/
theorem handlerCallCount_exact (eh : ErrorHandler) (name label : String) (retry : Nat)
    (handler : Nat → Except AgentError String)
    (hfail : ∀ k, ∃ e, handler k = Except.error e ∧ e.retryable = true) :
    ∀ remaining, remaining ≤ retry →
      handlerCallCount name (runAttempts eh name label retry handler remaining).1 = remaining
  | 0, _ => by simp [runAttempts, handlerCallCount, handlerContextsOf]
  | m + 1, hm => by
      obtain ⟨e, he, hr⟩ := hfail (retry - (m + 1))
      by_cases hm0 : 0 < m
      · have hc : retry - (m + 1) < retry - 1 ∧ should_retry e (retry - (m + 1)) = true := by
          exact ⟨by omega, by simpa [should_retry] using hr⟩
        have ih := handlerCallCount_exact eh name label retry handler hfail m (by omega)
        simp only [runAttempts, he, if_pos hc, handlerCallCount, handlerContextsOf,
          List.filterMap_cons] at ih ⊢
        simp_all
      · have hm0' : m = 0 := by omega
        subst hm0'
        have hc : ¬ (retry - (0 + 1) < retry - 1 ∧ should_retry e (retry - (0 + 1)) = true) := by
          rintro ⟨h1, -⟩; omega
        simp [runAttempts, he, if_neg hc, handlerCallCount, handlerContextsOf]

/-- C7: a handler that fails with a retryable error on every attempt is
invoked exactly `config.retry` (the task's maximum attempt count) times;
and no handler is ever invoked more than `config.retry` times. -/
theorem c7_always_failing_handler_runs_maxattempts (eh : ErrorHandler)
    (configs : String → Option AgentConfig) (chineseOf : String → Option String)
    (handlers : String → Nat → Except AgentError String)
    (name : String) (cfg : AgentConfig) (context : Option String)
    (hcfg : configs name = some cfg)
    (hfail : ∀ k, ∃ e, handlers name k = Except.error e ∧ e.retryable = true) :
    handlerCallCount name (executeAgent eh configs chineseOf handlers name context).1 = cfg.retry
    ∧ ∀ handlers' : String → Nat → Except AgentError String,
        handlerCallCount name
          (executeAgent eh configs chineseOf handlers' name context).1 ≤ cfg.retry := by
  constructor
  · have h := handlerCallCount_exact eh name ((chineseOf name).getD name) cfg.retry
      (handlers name) hfail cfg.retry le_rfl
    simpa [executeAgent, hcfg, handlerCallCount, handlerContextsOf] using h
  · intro handlers'
    have h := handlerCallCount_le eh name ((chineseOf name).getD name) cfg.retry
      (handlers' name) cfg.retry
    simpa [executeAgent, hcfg, handlerCallCount, handlerContextsOf] using h

/-- Witness for C7: the always-failing `site_selection` handler is
invoked exactly its configured three attempts. -/
theorem c7_witness :
    handlerCallCount "site_selection"
      (executeAgent defaultEH defaultConfigs AGENT_NAME_TO_CHINESE failSite
        "site_selection" none).1 = 3 :=
  (c7_always_failing_handler_runs_maxattempts defaultEH defaultConfigs
    AGENT_NAME_TO_CHINESE failSite "site_selection" siteSelectionCfg
    none (by decide) (fun k => ⟨{ msg := "boom", retryable := true }, rfl, rfl⟩)).1

/-- C2 amended: a task that exhausts its retries in a multi-task stage
does not abort the run — with `site_selection` failing every attempt
(error message `m`) and the other five agents succeeding first try, the
run completes with the failure placeholder recorded as `site_selection`'s
chapter-2 entry while its stage sibling and all subsequent stages still
run and record their outputs. -/
theorem c2_amended_multi_stage_failure_tolerated
    (handlers : String → Nat → Except AgentError String)
    (m o1 o3 o4 o5 o6 : String) (scheds : List (List Nat))
    (hpo : handlers "project_overview" 0 = Except.ok o1)
    (hss : ∀ k, handlers "site_selection" k = Except.error { msg := m, retryable := true })
    (hca : handlers "compliance_analysis" 0 = Except.ok o3)
    (hra : handlers "rationality_analysis" 0 = Except.ok o4)
    (hlu : handlers "land_use_analysis" 0 = Except.ok o5)
    (hco : handlers "conclusion" 0 = Except.ok o6) :
    (executeWorkflow (defaultEnv handlers) none scheds).2 =
      Except.ok [("1", o1), ("2", "[生成失败: " ++ m ++ "]"), ("3", o3),
        ("4", o4), ("5", o5), ("6", o6)] := by
  simp [executeWorkflow, runGroups, defaultEnv, filterGroup, selTruthy, PARALLEL_GROUPS,
    executeAgent, defaultConfigs, DEFAULT_AGENT_CONFIGS, List.find?, runAttempts,
    hpo, hss, hca, hra, hlu, hco, AGENT_NAME_TO_CHAPTER, AGENT_NAME_TO_CHINESE,
    applyGroup, resultValue, setRes, should_retry]

/-- Witness for C2's amended claim: the `failSite` fixture produces the
complete six-entry map with the chapter-2 placeholder. -/
theorem c2_witness :
    (executeWorkflow (defaultEnv failSite) none []).2 =
      Except.ok [("1", "out_project_overview"), ("2", "[生成失败: " ++ "boom" ++ "]"),
        ("3", "out_compliance_analysis"), ("4", "out_rationality_analysis"),
        ("5", "out_land_use_analysis"), ("6", "out_conclusion")] :=
  c2_amended_multi_stage_failure_tolerated failSite "boom" "out_project_overview"
    "out_compliance_analysis" "out_rationality_analysis" "out_land_use_analysis"
    "out_conclusion" [] rfl (fun _ => rfl) rfl rfl rfl rfl

/-- C3 amended: whenever the two single-task stages succeed (the
multi-task stages' outcomes are arbitrary), `execute_workflow` returns a
result map whose keys are exactly the six planned chapters, one entry per
planned task. -/
theorem c3_amended_complete_map_when_single_stages_ok
    (handlers : String → Nat → Except AgentError String)
    (o1 o6 : String) (scheds : List (List Nat))
    (h1 : (executeAgent defaultEH defaultConfigs AGENT_NAME_TO_CHINESE handlers
        "project_overview" none).2 = Except.ok o1)
    (h6 : (executeAgent defaultEH defaultConfigs AGENT_NAME_TO_CHINESE handlers
        "conclusion" none).2 = Except.ok o6) :
    ∃ mp, (executeWorkflow (defaultEnv handlers) none scheds).2 = Except.ok mp
      ∧ mp.map Prod.fst = ["1", "2", "3", "4", "5", "6"] := by
  simp [executeWorkflow, runGroups, defaultEnv, filterGroup, selTruthy, PARALLEL_GROUPS,
    h1, h6, AGENT_NAME_TO_CHAPTER, applyGroup, resultValue, setRes]

/-- Witness for C3's amended claim at the all-success fixture. -/
theorem c3_witness :
    ∃ mp, (executeWorkflow (defaultEnv okHandlers) none []).2 = Except.ok mp
      ∧ mp.map Prod.fst = ["1", "2", "3", "4", "5", "6"] :=
  c3_amended_complete_map_when_single_stages_ok okHandlers
    ("out_" ++ "project_overview") ("out_" ++ "conclusion") [] rfl rfl

/-- Helper: every event of the retry loop is attributed (by agent name or
by display label) to the task being executed. -/
theorem runAttempts_events (eh : ErrorHandler) (name label : String) (retry : Nat)
    (handler : Nat → Except AgentError String) :
    ∀ remaining, ∀ e ∈ (runAttempts eh name label retry handler remaining).1,
      (∀ x, e.agentOf = some x → x = name) ∧ (∀ l, e.labelOf = some l → l = label)
  | 0, e, he => by
      simp only [runAttempts, List.mem_cons, List.not_mem_nil, or_false] at he
      rcases he with rfl | rfl <;> simp [Event.agentOf, Event.labelOf]
  | m + 1, e, he => by
      cases h : handler (retry - (m + 1)) with
      | ok r =>
          simp only [runAttempts, h, List.mem_cons, List.not_mem_nil, or_false] at he
          rcases he with rfl | rfl | rfl <;> simp [Event.agentOf, Event.labelOf]
      | error err =>
          by_cases hc : retry - (m + 1) < retry - 1 ∧ should_retry err (retry - (m + 1)) = true
          · simp only [runAttempts, h, if_pos hc, List.mem_cons] at he
            rcases he with rfl | rfl | rfl | rfl | he
            · simp [Event.agentOf, Event.labelOf]
            · simp [Event.agentOf, Event.labelOf]
            · simp [Event.agentOf, Event.labelOf]
            · simp [Event.agentOf, Event.labelOf]
            · exact runAttempts_events eh name label retry handler m e he
          · simp only [runAttempts, h, if_neg hc, List.mem_cons, List.not_mem_nil,
              or_false] at he
            rcases he with rfl | rfl | rfl <;> simp [Event.agentOf, Event.labelOf]

/-- Helper: every event of one `_execute_agent` run is attributed to the
executed task (by name, or by its display label). -/
theorem executeAgent_events (eh : ErrorHandler) (configs : String → Option AgentConfig)
    (chineseOf : String → Option String)
    (handlers : String → Nat → Except AgentError String)
    (name : String) (context : Option String) :
    ∀ e ∈ (executeAgent eh configs chineseOf handlers name context).1,
      (∀ x, e.agentOf = some x → x = name)
      ∧ (∀ l, e.labelOf = some l → l = (chineseOf name).getD name) := by
  intro e he
  unfold executeAgent at he
  rcases hcfg : configs name with _ | cfg <;> simp only [hcfg] at he
  case none => cases he
  simp only [List.mem_cons] at he
  rcases he with rfl | rfl | he
  · simp [Event.agentOf, Event.labelOf]
  · simp [Event.agentOf, Event.labelOf]
  · exact runAttempts_events eh name ((chineseOf name).getD name) cfg.retry
      (handlers name) cfg.retry e he

/-- Helper: an interleaving contains only events of the interleaved
streams. -/
theorem interleave_mem :
    ∀ (sched : List Nat) (ls : List (List Event)) (e : Event),
      e ∈ interleave sched ls → e ∈ ls.flatten
  | [], _, _, he => he
  | i :: rest, ls, e, he => by
      rcases hgi : ls.get? i with _ | ⟨_ | ⟨x, xs⟩⟩
      · simp only [interleave, hgi] at he
        exact interleave_mem rest ls e he
      · simp only [interleave, hgi] at he
        exact interleave_mem rest ls e he
      · simp only [interleave, hgi] at he
        rcases List.mem_cons.mp he with rfl | he
        · exact List.mem_flatten.mpr ⟨_, List.get?_mem hgi, List.mem_cons_self _ _⟩
        · have hmem := interleave_mem rest (ls.set i xs) e he
          obtain ⟨l, hl, hel⟩ := List.mem_flatten.mp hmem
          rcases List.mem_or_eq_of_mem_set hl with hl' | rfl
          · exact List.mem_flatten.mpr ⟨l, hl', hel⟩
          · exact List.mem_flatten.mpr
              ⟨_, List.get?_mem hgi, List.mem_cons_of_mem _ hel⟩

/-- Helper: with `selected_chapters = None` the chapter filter is the
identity. -/
theorem filterGroup_none (env : Env) (group : List String) :
    filterGroup env none group = group := by
  simp [filterGroup, selTruthy]

/-- Helper: the chapter filter of the empty group is empty. -/
theorem filterGroup_nil (env : Env) (selected : Option (List String)) :
    filterGroup env selected [] = [] := by
  unfold filterGroup
  split <;> simp

/-- Helper: every event of the `k`-th stage segment of a run is
attributed to a task of the `k`-th (filtered) group — stages own their
events. -/
theorem runGroups_seg_events (env : Env) (selected : Option (List String)) :
    ∀ (groups : List (List String)) (scheds : List (List Nat))
      (results : List (String × String)) (k : Nat) (seg : List Event),
      (runGroups env selected scheds groups results).1.get? k = some seg →
      ∀ e ∈ seg, ∃ n, n ∈ filterGroup env selected (groups.getD k [])
        ∧ (∀ x, e.agentOf = some x → x = n)
        ∧ (∀ l, e.labelOf = some l → l = (env.chineseOf n).getD n)
  | [], _, _, k, seg, hk => by simp [runGroups] at hk
  | group :: rest, scheds, results, k, seg, hk => by
      simp only [runGroups] at hk
      by_cases hskip : selTruthy selected = true ∧ filterGroup env selected group = []
      · rw [if_pos hskip] at hk
        match k with
        | 0 =>
            rw [List.get?_cons_zero] at hk
            cases hk
            intro e he
            cases he
        | k + 1 =>
            rw [List.get?_cons_succ] at hk
            intro e he
            obtain ⟨n, hn, hprops⟩ :=
              runGroups_seg_events env selected rest scheds.tail results k seg hk e he
            exact ⟨n, by rw [List.getD_cons_succ]; exact hn, hprops⟩
      · rw [if_neg hskip] at hk
        rcases hg : filterGroup env selected group with _ | ⟨n1, _ | ⟨n2, gt⟩⟩ <;>
          simp only [hg] at hk
        · -- the filtered group is empty but the skip branch was not taken:
          -- the gather branch runs zero tasks and contributes an empty segment
          match k with
          | 0 =>
              simp only [List.map_nil, applyGroup, List.get?_cons_zero] at hk
              cases hk
              intro e he
              rcases List.mem_append.mp he with he | he
              · cases he
              · have := interleave_mem (scheds.headD []) [] e he
                cases this
          | k + 1 =>
              simp only [List.map_nil, applyGroup, List.get?_cons_succ] at hk
              intro e he
              obtain ⟨n, hn, hprops⟩ :=
                runGroups_seg_events env selected rest scheds.tail results k seg hk e he
              exact ⟨n, by rw [List.getD_cons_succ]; exact hn, hprops⟩
        · -- single-task group
          cases hrun : (executeAgent env.eh env.configs env.chineseOf env.handlers n1 none).2 with
          | error err =>
              rw [hrun] at hk
              match k with
              | 0 =>
                  rw [List.get?_cons_zero] at hk
                  cases hk
                  intro e he
                  refine ⟨n1, by rw [List.getD_cons_zero, hg]; exact List.mem_cons_self n1 [], ?_⟩
                  exact executeAgent_events env.eh env.configs env.chineseOf env.handlers
                    n1 none e he
              | k + 1 => rw [List.get?_cons_succ] at hk; cases hk
          | ok r =>
              rw [hrun] at hk
              rcases hch : env.chapterOf n1 with _ | ch <;> rw [hch] at hk
              · match k with
                | 0 =>
                    rw [List.get?_cons_zero] at hk
                    cases hk
                    intro e he
                    refine ⟨n1, by rw [List.getD_cons_zero, hg]; exact List.mem_cons_self n1 [], ?_⟩
                    exact executeAgent_events env.eh env.configs env.chineseOf env.handlers
                      n1 none e he
                | k + 1 => rw [List.get?_cons_succ] at hk; cases hk
              · match k with
                | 0 =>
                    rw [List.get?_cons_zero] at hk
                    cases hk
                    intro e he
                    refine ⟨n1, by rw [List.getD_cons_zero, hg]; exact List.mem_cons_self n1 [], ?_⟩
                    exact executeAgent_events env.eh env.configs env.chineseOf env.handlers
                      n1 none e he
                | k + 1 =>
                    rw [List.get?_cons_succ] at hk
                    intro e he
                    obtain ⟨n, hn, hprops⟩ := runGroups_seg_events env selected rest
                      scheds.tail (setRes results ch r) k seg hk e he
                    exact ⟨n, by rw [List.getD_cons_succ]; exact hn, hprops⟩
        · -- multi-task group (two or more tasks)
          cases happly : applyGroup env (n1 :: n2 :: gt)
              (((n1 :: n2 :: gt).map (fun n =>
                executeAgent env.eh env.configs env.chineseOf env.handlers n
                  (buildContext env.configs env.chapterOf env.chineseOf n results))).map
                Prod.snd) results with
          | error err =>
              rw [happly] at hk
              match k with
              | 0 =>
                  rw [List.get?_cons_zero] at hk
                  cases hk
                  intro e he
                  rcases List.mem_append.mp he with he | he
                  · obtain ⟨n, hn, hne⟩ := List.mem_map.mp he
                    refine ⟨n, by rw [List.getD_cons_zero, hg]; exact hn, ?_, ?_⟩
                    · intro x hx; rw [← hne] at hx; cases hx; rfl
                    · intro l hl; rw [← hne] at hl; cases hl
                  · have hfl := interleave_mem (scheds.headD []) _ e he
                    obtain ⟨tr, htr, hetr⟩ := List.mem_flatten.mp hfl
                    obtain ⟨pr, hpr, hprtr⟩ := List.mem_map.mp htr
                    obtain ⟨n, hn, hnpr⟩ := List.mem_map.mp hpr
                    refine ⟨n, by rw [List.getD_cons_zero, hg]; exact hn, ?_⟩
                    apply executeAgent_events env.eh env.configs env.chineseOf env.handlers
                      n (buildContext env.configs env.chapterOf env.chineseOf n results) e
                    rw [← hprtr, ← hnpr] at hetr
                    exact hetr
              | k + 1 => rw [List.get?_cons_succ] at hk; cases hk
          | ok results2 =>
              rw [happly] at hk
              match k with
              | 0 =>
                  rw [List.get?_cons_zero] at hk
                  cases hk
                  intro e he
                  rcases List.mem_append.mp he with he | he
                  · obtain ⟨n, hn, hne⟩ := List.mem_map.mp he
                    refine ⟨n, by rw [List.getD_cons_zero, hg]; exact hn, ?_, ?_⟩
                    · intro x hx; rw [← hne] at hx; cases hx; rfl
                    · intro l hl; rw [← hne] at hl; cases hl
                  · have hfl := interleave_mem (scheds.headD []) _ e he
                    obtain ⟨tr, htr, hetr⟩ := List.mem_flatten.mp hfl
                    obtain ⟨pr, hpr, hprtr⟩ := List.mem_map.mp htr
                    obtain ⟨n, hn, hnpr⟩ := List.mem_map.mp hpr
                    refine ⟨n, by rw [List.getD_cons_zero, hg]; exact hn, ?_⟩
                    apply executeAgent_events env.eh env.configs env.chineseOf env.handlers
                      n (buildContext env.configs env.chapterOf env.chineseOf n results) e
                    rw [← hprtr, ← hnpr] at hetr
                    exact hetr
              | k + 1 =>
                  rw [List.get?_cons_succ] at hk
                  intro e he
                  obtain ⟨n, hn, hprops⟩ := runGroups_seg_events env selected rest
                    scheds.tail results2 k seg hk e he
                  exact ⟨n, by rw [List.getD_cons_succ]; exact hn, hprops⟩

/-- Helper: in a concatenation, an index holding an element from the left
part precedes every index holding an element that occurs only in the
right part. -/
theorem get?_append_lt {α : Type} (A B : List α) (P Q : α → Prop) (p q : Nat) (a b : α)
    (hp : (A ++ B).get? p = some a) (hq : (A ++ B).get? q = some b)
    (hPa : P a) (hQb : Q b)
    (hPB : ∀ x ∈ B, ¬ P x) (hQA : ∀ x ∈ A, ¬ Q x) : p < q := by
  have hpA : p < A.length := by
    by_contra hle
    push_neg at hle
    rw [List.get?_append_right hle] at hp
    exact hPB a (List.get?_mem hp) hPa
  have hqB : A.length ≤ q := by
    by_contra hlt
    push_neg at hlt
    rw [List.get?_append hlt] at hq
    exact hQA b (List.get?_mem hq) hQb
  omega

/-- C6: stage execution is strictly sequential with a failure-covering
fan-in — in the event trace of a run (under any interleaving schedule of
the parallel groups and any handler outcomes), every event of a task `t`
of stage `i` precedes every event of a task `u` of a later stage `j`; in
particular `u` is not started before every task of stage `i`, `t`
included, has reached a terminal state. -/
theorem c6_stage_sequencing (env : Env) (scheds : List (List Nat))
    (groups : List (List String)) (i j : Nat) (t u : String) (p q : Nat) (e e' : Event)
    (hij : i < j)
    (ht : t ∈ groups.getD i []) (hu : u ∈ groups.getD j [])
    (htm : ∀ m, i < m → t ∉ groups.getD m [])
    (hum : ∀ m, m < j → u ∉ groups.getD m [])
    (hp : ((runGroups env none scheds groups []).1.flatten).get? p = some e)
    (hq : ((runGroups env none scheds groups []).1.flatten).get? q = some e')
    (he : e.agentOf = some t) (he' : e'.agentOf = some u) :
    p < q := by
  have hsplit : ((runGroups env none scheds groups []).1).flatten =
      (((runGroups env none scheds groups []).1).take (i + 1)).flatten
        ++ (((runGroups env none scheds groups []).1).drop (i + 1)).flatten := by
    rw [← List.flatten_append, List.take_append_drop]
  rw [hsplit] at hp hq
  refine get?_append_lt _ _ (fun x => x.agentOf = some t) (fun x => x.agentOf = some u)
    p q e e' hp hq he he' ?_ ?_
  · intro x hx hxa
    obtain ⟨l, hl, hel⟩ := List.mem_flatten.mp hx
    obtain ⟨m, hm⟩ := List.mem_iff_get?.mp hl
    rw [List.get?_drop] at hm
    obtain ⟨n, hn, hprops, -⟩ :=
      runGroups_seg_events env none groups scheds [] (i + 1 + m) l hm x hel
    rw [filterGroup_none] at hn
    rcases hprops t hxa with rfl
    exact htm (i + 1 + m) (by omega) hn
  · intro x hx hxa
    obtain ⟨l, hl, hel⟩ := List.mem_flatten.mp hx
    obtain ⟨m, hm⟩ := List.mem_iff_get?.mp hl
    have hmlt : m < i + 1 := by
      obtain ⟨hlen, -⟩ := List.get?_eq_some.mp hm
      have := List.length_take (i + 1) ((runGroups env none scheds groups []).1)
      omega
    rw [List.get?_take hmlt] at hm
    obtain ⟨n, hn, hprops, -⟩ :=
      runGroups_seg_events env none groups scheds [] m l hm x hel
    rw [filterGroup_none] at hn
    rcases hprops u hxa with rfl
    exact hum m (by omega) hn

/-- Witness for C6 at a concrete all-success run of the default plan:
the `recordStart` of stage-1 `project_overview` (index 1) precedes the
first stage-2 event of `site_selection` (index 5). -/
theorem c6_witness :
    Event.agentOf (Event.recordStart "project_overview") = some "project_overview"
    ∧ (1 : Nat) < 5 :=
  ⟨by decide,
    c6_stage_sequencing (defaultEnv okHandlers) [] PARALLEL_GROUPS 0 1
      "project_overview" "site_selection" 1 5
      (Event.recordStart "project_overview")
      (Event.contextBuilt "site_selection" (some "## 项目概况\nout_project_overview\n"))
      (by decide) (by decide) (by decide)
      (by
        intro m hm
        match m with
        | 0 => omega
        | 1 => decide
        | 2 => decide
        | 3 => decide
        | n + 4 => simp [PARALLEL_GROUPS, List.getD_cons_succ, List.getD_nil])
      (by
        intro m hm
        match m with
        | 0 => decide
        | n + 1 => omega)
      (by decide) (by decide) (by decide) (by decide)⟩

/-- Helper: assigning one key leaves the lookup of a different key
unchanged. -/
theorem lookupRes_setRes_ne :
    ∀ (results : List (String × String)) (k v ch : String), k ≠ ch →
      lookupRes (setRes results k v) ch = lookupRes results ch
  | [], k, v, ch, hne => by simp [setRes, lookupRes, hne]
  | (k', v') :: rest, k, v, ch, hne => by
      by_cases hk : k' = k
      · subst hk
        simp [setRes, lookupRes, hne]
      · simp only [setRes, if_neg hk, lookupRes]
        by_cases hk2 : k' = ch
        · simp [hk2]
        · simp [hk2, lookupRes_setRes_ne rest k v ch hne]

/-- Helper: processing a gathered group writes only the chapters of its
members; lookups of other chapters are preserved. -/
theorem applyGroup_lookup (env : Env) (ch : String) :
    ∀ (g : List String) (rs : List (Except AgentError String))
      (results : List (String × String)),
      (∀ n ∈ g, env.chapterOf n ≠ some ch) →
      ∀ mp, applyGroup env g rs results = Except.ok mp →
        lookupRes mp ch = lookupRes results ch
  | [], rs, results, _, mp, hmp => by
      simp only [applyGroup] at hmp
      cases hmp
      rfl
  | n :: ns, rs, results, hg, mp, hmp => by
      simp only [applyGroup] at hmp
      rcases hchn : env.chapterOf n with _ | chn <;> simp only [hchn] at hmp
      · cases hmp
      · have ih := applyGroup_lookup env ch ns rs.tail _
          (fun n' hn' => hg n' (List.mem_cons_of_mem n hn')) mp hmp
        rw [ih]
        exact lookupRes_setRes_ne results chn _ ch
          (fun hcon => hg n (List.mem_cons_self n ns) (hcon ▸ hchn))

/-- Helper: a workflow run writes only the chapters of the tasks that
survive the chapter filter; lookups of any other chapter are
preserved. -/
theorem runGroups_lookup (env : Env) (selected : Option (List String)) (ch : String) :
    ∀ (groups : List (List String)) (scheds : List (List Nat))
      (results : List (String × String)),
      (∀ g ∈ groups, ∀ n ∈ filterGroup env selected g, env.chapterOf n ≠ some ch) →
      ∀ mp, (runGroups env selected scheds groups results).2 = Except.ok mp →
        lookupRes mp ch = lookupRes results ch
  | [], _, results, _, mp, hmp => by
      simp only [runGroups] at hmp
      cases hmp
      rfl
  | group :: rest, scheds, results, hgs, mp, hmp => by
      simp only [runGroups] at hmp
      have hgrest : ∀ g ∈ rest, ∀ n ∈ filterGroup env selected g, env.chapterOf n ≠ some ch :=
        fun g hg => hgs g (List.mem_cons_of_mem group hg)
      have hgthis := hgs group (List.mem_cons_self group rest)
      by_cases hskip : selTruthy selected = true ∧ filterGroup env selected group = []
      · rw [if_pos hskip] at hmp
        exact runGroups_lookup env selected ch rest scheds.tail results hgrest mp hmp
      · rw [if_neg hskip] at hmp
        rcases hg : filterGroup env selected group with _ | ⟨n1, _ | ⟨n2, gt⟩⟩ <;>
          simp only [hg] at hmp
        · simp only [List.map_nil, applyGroup] at hmp
          exact runGroups_lookup env selected ch rest scheds.tail results hgrest mp hmp
        · cases hrun : (executeAgent env.eh env.configs env.chineseOf env.handlers n1 none).2 with
          | error err => rw [hrun] at hmp; cases hmp
          | ok r =>
              rw [hrun] at hmp
              rcases hchn : env.chapterOf n1 with _ | chn <;> simp only [hchn] at hmp
              · cases hmp
              · have ih := runGroups_lookup env selected ch rest scheds.tail
                  (setRes results chn r) hgrest mp hmp
                rw [ih]
                exact lookupRes_setRes_ne results chn r ch
                  (fun hcon =>
                    hgthis n1 (by rw [hg]; exact List.mem_cons_self n1 []) (hcon ▸ hchn))
        · cases happly : applyGroup env (n1 :: n2 :: gt)
              (((n1 :: n2 :: gt).map (fun n =>
                executeAgent env.eh env.configs env.chineseOf env.handlers n
                  (buildContext env.configs env.chapterOf env.chineseOf n results))).map
                Prod.snd) results with
          | error err => rw [happly] at hmp; cases hmp
          | ok results2 =>
              rw [happly] at hmp
              have hpres := applyGroup_lookup env ch (n1 :: n2 :: gt) _ results
                (fun n hn => hgthis n (by rw [hg]; exact hn)) results2 happly
              have ih := runGroups_lookup env selected ch rest scheds.tail results2 hgrest mp hmp
              rw [ih, hpres]

/-- C10 amended: for every call with a non-empty `selected_chapters`
list, a task whose chapter number is not in the list is skipped entirely:
no metrics, progress, context-builder or handler event of that task ever
appears in the trace, and the returned chapters map has no entry for its
chapter (a stage all of whose tasks are filtered out is skipped whole).
With `selected_chapters = []` the filter is disabled (Python truthiness),
so the claim's guarantee only holds for non-empty lists. -/
theorem c10_amended_nonempty_selection_filters (env : Env) (sel : List String)
    (scheds : List (List Nat)) (groups : List (List String)) (name ch : String)
    (hsel : sel ≠ []) (hch : env.chapterOf name = some ch) (hnotin : ch ∉ sel)
    (hlab : ∀ g ∈ groups, ∀ n ∈ filterGroup env (some sel) g,
        (env.chineseOf n).getD n ≠ (env.chineseOf name).getD name)
    (hinj : ∀ g ∈ groups, ∀ n ∈ filterGroup env (some sel) g, env.chapterOf n ≠ some ch) :
    (∀ e ∈ (runGroups env (some sel) scheds groups []).1.flatten,
        e.agentOf ≠ some name
        ∧ e.labelOf ≠ some ((env.chineseOf name).getD name))
    ∧ ∀ mp, (runGroups env (some sel) scheds groups []).2 = Except.ok mp →
        lookupRes mp ch = none := by
  constructor
  · intro e he
    obtain ⟨l, hl, hel⟩ := List.mem_flatten.mp he
    obtain ⟨k, hk⟩ := List.mem_iff_get?.mp hl
    obtain ⟨n, hn, hag, hlb⟩ :=
      runGroups_seg_events env (some sel) groups scheds [] k l hk e hel
    have hgmem : groups.getD k [] ∈ groups := by
      by_cases hlen : k < groups.length
      · rw [List.getD_eq_getElem _ _ hlen]
        exact List.getElem_mem hlen
      · exfalso
        rw [List.getD_eq_default _ _ (by omega), filterGroup_nil] at hn
        cases hn
    constructor
    · intro hag'
      rcases hag name hag' with rfl
      rcases hsl : sel with _ | ⟨s, ss⟩
      · exact hsel hsl
      · subst hsl
        simp only [filterGroup, selTruthy, if_pos] at hn
        obtain ⟨-, hpred⟩ := List.mem_filter.mp hn
        rw [hch] at hpred
        simp only [Option.getD_some] at hpred
        exact hnotin (by simpa using hpred)
    · intro hlb'
      exact hlab _ hgmem n hn (hlb _ hlb').symm
  · intro mp hmp
    have hpres := runGroups_lookup env (some sel) ch groups scheds [] hinj mp hmp
    rw [hpres]
    rfl

/-- Witness for C10's amended claim: selecting chapters 2 and 3 skips
`project_overview` (chapter 1) entirely. -/
theorem c10_witness :
    (["2", "3"] : List String) ≠ []
    ∧ ((∀ e ∈ (runGroups (defaultEnv okHandlers) (some ["2", "3"]) [] PARALLEL_GROUPS
            []).1.flatten,
          e.agentOf ≠ some "project_overview"
          ∧ e.labelOf ≠ some (((defaultEnv okHandlers).chineseOf
              "project_overview").getD "project_overview"))
        ∧ ∀ mp, (runGroups (defaultEnv okHandlers) (some ["2", "3"]) [] PARALLEL_GROUPS
            []).2 = Except.ok mp → lookupRes mp "1" = none) :=
  ⟨by decide,
    c10_amended_nonempty_selection_filters (defaultEnv okHandlers) ["2", "3"] []
      PARALLEL_GROUPS "project_overview" "1"
      (by decide) (by decide) (by decide) (by decide) (by decide)⟩

end OrchestratorV2
